import Mathlib

/-!
Shallow embedding of the queue-management service in `app.py`.

The MongoDB `bookings` collection is modelled as a list of `Ticket` records
(documents); the `updates` collection (change-signal markers) as a list of
timestamps.  Timestamps are natural numbers counting seconds since the UNIX
epoch, in UTC.  A MongoDB `ObjectId` is modelled as the natural number given
by its 24 hexadecimal digits; its embedded generation time is the top four
of its twelve bytes.  Fields that the Python code reads with `.get` (and
which may therefore be absent from a document) are `Option`-valued.
-/

/-- A document of the `bookings` collection. -/
structure Ticket where
  _id : Nat
  booking_id : Option String
  patient_name : Option String
  department : Option String
  status : Option String
  created_at : Option Nat
  started_at : Option Nat
  completed_at : Option Nat
deriving Repr, DecidableEq

/-- The persistent state: the `bookings` collection and the `updates`
collection (timestamps of change-signal marker documents). -/
structure Store where
  bookings : List Ticket
  updates : List Nat
deriving Repr, DecidableEq

/-- `DEPT_SERVICE_TIME`: the fixed category-to-minutes table of `app.py`. -/
def DEPT_SERVICE_TIME : List (String × Nat) :=
  [("Emergency", 3), ("Fever", 2), ("Headache", 5), ("General", 10),
   ("General Medicine", 8), ("Cardiology", 15)]

/-- `DEPT_SERVICE_TIME.get(dept, 10)` of the source. -/
def dept_minutes (dept : String) : Nat :=
  (DEPT_SERVICE_TIME.lookup dept).getD 10

/-- `DEPT_SERVICE_TIME.get(doc.get("department", "General"), 10)`:
the estimated service duration of one ticket. -/
def service_minutes (t : Ticket) : Nat :=
  dept_minutes (t.department.getD "General")

/-- The generation time embedded in an ObjectId: the top 4 of its 12 bytes. -/
def oid_generation_time (oid : Nat) : Nat := oid / 2 ^ 64

/-- `_sort_key_by_created_or_oid`: prefer `created_at`, fall back to the
ObjectId generation time. -/
def sort_key_by_created_or_oid (doc : Ticket) : Nat :=
  match doc.created_at with
  | some created => created
  | none => oid_generation_time doc._id

/-- The FIFO ordering relation used to sort waiting tickets. -/
def key_le (a b : Ticket) : Prop :=
  sort_key_by_created_or_oid a ≤ sort_key_by_created_or_oid b

instance : DecidableRel key_le := fun a b => Nat.decLe _ _

instance : IsTotal Ticket key_le := ⟨fun a b => Nat.le_total _ _⟩

instance : IsTrans Ticket key_le := ⟨fun _ _ _ => Nat.le_trans⟩

/-- MongoDB `find_one(filter)`: first document matching the filter. -/
def find_one (p : Ticket → Bool) (s : Store) : Option Ticket :=
  s.bookings.find? p

/-- MongoDB `find(filter)` materialised with `list(...)`. -/
def find_many (p : Ticket → Bool) (s : Store) : List Ticket :=
  s.bookings.filter p

/-- MongoDB `count_documents(filter)`. -/
def count_documents (p : Ticket → Bool) (s : Store) : Nat :=
  (s.bookings.filter p).length

/-- MongoDB `update_one(filter, {"$set": ...})`: rewrite the first matching
document with `f`; return the matched count (0 or 1) and the new collection. -/
def update_first (p : Ticket → Bool) (f : Ticket → Ticket) :
    List Ticket → Nat × List Ticket
  | [] => (0, [])
  | t :: ts =>
    if p t then (1, f t :: ts)
    else ((update_first p f ts).1, t :: (update_first p f ts).2)

/-- `update_one` lifted to the store. -/
def update_one (p : Ticket → Bool) (f : Ticket → Ticket) (s : Store) :
    Nat × Store :=
  ((update_first p f s.bookings).1,
   { s with bookings := (update_first p f s.bookings).2 })

/-- `notify_update`: insert a change-signal marker stamped `now`. -/
def notify_update (now : Nat) (s : Store) : Store :=
  { s with updates := s.updates ++ [now] }

/-- `get_latest_update_ts`: the latest marker timestamp, or the epoch. -/
def get_latest_update_ts (s : Store) : Nat :=
  s.updates.foldl max 0

/-- `doc.get("status") == "waiting"` as a Boolean filter. -/
def is_waiting (t : Ticket) : Bool := t.status == some "waiting"

/-- `doc.get("status") == "in_progress"` as a Boolean filter. -/
def is_in_progress (t : Ticket) : Bool := t.status == some "in_progress"

/-- Number of `in_progress` documents in the store. -/
def in_progress_count (s : Store) : Nat :=
  count_documents is_in_progress s

/-- `ensure_defaults(doc_id, doc)`: backfill `status`/`created_at` when
absent, both in the store (one conditional `$set`) and in the in-memory
document; return the repaired document and the new store. -/
def ensure_defaults (now : Nat) (doc_id : Nat) (doc : Ticket) (s : Store) :
    Ticket × Store :=
  let set_status := doc.status.isNone
  let set_created := doc.created_at.isNone
  if set_status || set_created then
    let f : Ticket → Ticket := fun t =>
      { t with
        status := if set_status then some "waiting" else t.status,
        created_at := if set_created then some now else t.created_at }
    (f doc, (update_one (fun t => t._id == doc_id) f s).2)
  else (doc, s)

/-- `sorted(waiting_docs, key=_sort_key_by_created_or_oid)[0]` guarded by
emptiness: the FIFO-earliest waiting ticket, if any. -/
def oldest_waiting (s : Store) : Option Ticket :=
  (List.insertionSort key_le (find_many is_waiting s)).head?

/-- The promotion step shared by `search` and `complete`: move the
FIFO-earliest waiting ticket (if any) to `in_progress`, stamping
`started_at`. -/
def promote_oldest (now : Nat) (s : Store) : Store :=
  match oldest_waiting s with
  | none => s
  | some oldest =>
    (update_one (fun t => t._id == oldest._id)
      (fun t => { t with status := some "in_progress", started_at := some now })
      s).2

/-- ASCII whitespace for the model of Python `str.strip()`. -/
def is_space (c : Char) : Bool :=
  c == ' ' || c == '\t' || c == '\n' || c == '\r'

/-- Model of Python `str.upper()` on one ASCII character. -/
def upper_char (c : Char) : Char :=
  if 'a' ≤ c && c ≤ 'z' then Char.ofNat (c.toNat - 32) else c

/-- Model of `data.get("booking_id", "").strip().upper()`:
trim leading and trailing whitespace, then uppercase. -/
def normalize_code (s : String) : String :=
  ⟨(((s.data.dropWhile is_space).reverse.dropWhile is_space).reverse).map
    upper_char⟩

/-- Outcome of `POST /api/search`. -/
inductive SearchResult where
  | noJson
  | invalidInput
  | notFound
  | ok (id : Nat)
deriving Repr, DecidableEq

/-- The part of `search` that runs once the ticket has been found: the
default-field backfill, the guarded promotion, and the change-signal write. -/
def search_found (now : Nat) (doc : Ticket) (s : Store) :
    SearchResult × Store :=
  let ds := ensure_defaults now doc._id doc s
  let s1 := ds.2
  let s2 := if in_progress_count s1 = 0 then promote_oldest now s1 else s1
  (SearchResult.ok ds.1._id, notify_update now s2)

/-- `search` (`POST /api/search`): the AdmitOrResume operation.
`body` is the request's `booking_id` field (`none`: no JSON body). -/
def search (now : Nat) (body : Option String) (s : Store) :
    SearchResult × Store :=
  match body with
  | none => (SearchResult.noJson, s)
  | some raw =>
    let booking_id := normalize_code raw
    if booking_id = "" then (SearchResult.invalidInput, s)
    else
      match find_one (fun t => t.booking_id == some booking_id) s with
      | none => (SearchResult.notFound, s)
      | some doc => search_found now doc s

/-- One hexadecimal digit of an ObjectId string. -/
def hex_digit_val (c : Char) : Option Nat :=
  if '0' ≤ c && c ≤ '9' then some (c.toNat - 48)
  else if 'a' ≤ c && c ≤ 'f' then some (c.toNat - 87)
  else if 'A' ≤ c && c ≤ 'F' then some (c.toNat - 55)
  else none

/-- `ObjectId(id)`: succeeds exactly on 24-hex-digit strings, yielding the
ObjectId's numeric value; `none` models the raised `InvalidId`. -/
def parse_object_id (id : String) : Option Nat :=
  if id.data.length = 24 && id.data.all (fun c => (hex_digit_val c).isSome)
  then some (id.data.foldl (fun n c => 16 * n + (hex_digit_val c).getD 0) 0)
  else none

/-- Row of the `waiting` list inside the statistics snapshot. -/
structure WaitingEntry where
  sno : Nat
  id : Nat
  name : Option String
  department : Option String
  booking_id : Option String
deriving Repr, DecidableEq

/-- The `in_progress` object inside the statistics snapshot. -/
structure InProgEntry where
  id : Nat
  name : Option String
  department : Option String
  booking_id : Option String
deriving Repr, DecidableEq

/-- The aggregate-statistics snapshot returned by `compute_stats`
(the constant `service_time_map` field is omitted). -/
structure Stats where
  queue_length : Nat
  estimated_wait_min : Nat
  completed_today : Nat
  waiting : List WaitingEntry
  in_progress : Option InProgEntry
  latest_update_ts : Nat
deriving Repr, DecidableEq

/-- `datetime.now(utc).replace(hour=0, minute=0, second=0, microsecond=0)`:
midnight UTC of the current day, in seconds since the epoch. -/
def today_start (now : Nat) : Nat := now - now % 86400

/-- Filter of the `completed_today` count:
`{"status": "completed", "completed_at": {"$gte": today_start}}`. -/
def completed_today_filter (now : Nat) (t : Ticket) : Bool :=
  t.status == some "completed" && t.completed_at.any (fun c => today_start now ≤ c)

/-- `compute_stats`: the aggregate-statistics read operation. -/
def compute_stats (now : Nat) (s : Store) : Stats :=
  let waiting_sorted := List.insertionSort key_le (find_many is_waiting s)
  let in_progress := find_one is_in_progress s
  let completed_today := count_documents (completed_today_filter now) s
  let total0 : Nat := 0
  let total1 :=
    match in_progress with
    | some d => total0 + service_minutes d
    | none => total0
  let total_min := waiting_sorted.foldl (fun acc t => acc + service_minutes t) total1
  { queue_length := waiting_sorted.length
    estimated_wait_min := total_min
    completed_today := completed_today
    waiting := waiting_sorted.enum.map (fun p =>
      { sno := p.1 + 1, id := p.2._id, name := p.2.patient_name,
        department := p.2.department, booking_id := p.2.booking_id })
    in_progress := in_progress.map (fun d =>
      { id := d._id, name := d.patient_name, department := d.department,
        booking_id := d.booking_id })
    latest_update_ts := get_latest_update_ts s }

/-- Outcome of `POST /api/complete/<id>`. -/
inductive CompleteResult where
  | invalidId
  | notFound
  | ok (stats : Stats)
deriving Repr, DecidableEq

/-- The filter of `complete`'s conditional update:
`{"_id": oid, "status": "in_progress"}`. -/
def complete_filter (oid : Nat) (t : Ticket) : Bool :=
  t._id == oid && t.status == some "in_progress"

/-- The `$set` of `complete`'s conditional update:
`{"status": "completed", "completed_at": now}`. -/
def complete_set (now : Nat) (t : Ticket) : Ticket :=
  { t with status := some "completed", completed_at := some now }

/-- The part of `complete` that runs once the id has parsed: the conditional
`in_progress → completed` update, the promotion, the change-signal write and
the statistics recomputation. -/
def complete_body (now : Nat) (oid : Nat) (s : Store) : CompleteResult × Store :=
  let r := update_one (complete_filter oid) (complete_set now) s
  if r.1 = 0 then (CompleteResult.notFound, s)
  else
    let s2 := promote_oldest now r.2
    let s3 := notify_update now s2
    (CompleteResult.ok (compute_stats now s3), s3)

/-- `complete` (`POST /api/complete/<id>`): the CompleteCurrent operation. -/
def complete (now : Nat) (id : String) (s : Store) : CompleteResult × Store :=
  match parse_object_id id with
  | none => (CompleteResult.invalidId, s)
  | some oid => complete_body now oid s

/-! ### Helper lemmas about the store primitives -/

theorem update_first_of_no_match (p : Ticket → Bool) (f : Ticket → Ticket) :
    ∀ l : List Ticket, (∀ t ∈ l, p t = false) → update_first p f l = (0, l)
  | [], _ => rfl
  | t :: ts, h => by
    have ht : p t = false := h t (List.mem_cons_self t ts)
    have ihr := update_first_of_no_match p f ts (fun x hx => h x (List.mem_cons_of_mem t hx))
    simp [update_first, ht, ihr]

theorem update_first_fst_zero (p : Ticket → Bool) (f : Ticket → Ticket) :
    ∀ l : List Ticket, (update_first p f l).1 = 0 →
      (update_first p f l).2 = l ∧ ∀ t ∈ l, p t = false
  | [], _ => ⟨rfl, by simp⟩
  | t :: ts, h => by
    by_cases hp : p t = true
    · simp [update_first, hp] at h
    · have hp' : p t = false := by simpa using hp
      simp only [update_first, hp', if_neg (by simp [hp'] : ¬ p t = true)] at h ⊢
      obtain ⟨h1, h2⟩ := update_first_fst_zero p f ts h
      exact ⟨by simp [h1], by
        intro x hx
        rcases List.mem_cons.1 hx with h | h
        · exact h ▸ hp'
        · exact h2 x h⟩

theorem update_first_fst_one_of_mem (p : Ticket → Bool) (f : Ticket → Ticket) :
    ∀ l : List Ticket, ∀ t ∈ l, p t = true → (update_first p f l).1 = 1
  | t0 :: ts, t, ht, hp => by
    by_cases h0 : p t0 = true
    · simp [update_first, h0]
    · have h0' : ¬ p t0 = true := h0
      rcases List.mem_cons.1 ht with h | h
      · exact absurd (h ▸ hp) h0'
      · simp only [update_first, if_neg h0']
        exact update_first_fst_one_of_mem p f ts t h hp

theorem update_first_structure (p : Ticket → Bool) (f : Ticket → Ticket) :
    ∀ l : List Ticket, (update_first p f l).1 = 1 →
      ∃ l₁ t l₂, l = l₁ ++ t :: l₂ ∧ (∀ x ∈ l₁, p x = false) ∧ p t = true ∧
        (update_first p f l).2 = l₁ ++ f t :: l₂
  | [], h => by simp [update_first] at h
  | t0 :: ts, h => by
    by_cases h0 : p t0 = true
    · exact ⟨[], t0, ts, by simp, by simp, h0, by simp [update_first, h0]⟩
    · have h0' : ¬ p t0 = true := h0
      simp only [update_first, if_neg h0'] at h
      obtain ⟨l₁, t, l₂, he, hl₁, hp, hu⟩ := update_first_structure p f ts h
      exact ⟨t0 :: l₁, t, l₂, by simp [he], by
        intro x hx
        rcases List.mem_cons.1 hx with hx | hx
        · exact hx ▸ (by simpa using h0')
        · exact hl₁ x hx, hp, by simp [update_first, if_neg h0', hu]⟩

theorem update_first_mem (p : Ticket → Bool) (f : Ticket → Ticket) :
    ∀ l : List Ticket, ∀ x ∈ (update_first p f l).2,
      x ∈ l ∨ ∃ t ∈ l, p t = true ∧ x = f t
  | t0 :: ts, x, hx => by
    by_cases h0 : p t0 = true
    · simp only [update_first, if_pos h0] at hx
      rcases List.mem_cons.1 hx with h | h
      · exact Or.inr ⟨t0, List.mem_cons_self t0 ts, h0, h⟩
      · exact Or.inl (List.mem_cons_of_mem t0 h)
    · simp only [update_first, if_neg h0] at hx
      rcases List.mem_cons.1 hx with h | h
      · exact Or.inl (h ▸ List.mem_cons_self t0 ts)
      · rcases update_first_mem p f ts x h with h | ⟨t, ht, hp, he⟩
        · exact Or.inl (List.mem_cons_of_mem t0 h)
        · exact Or.inr ⟨t, List.mem_cons_of_mem t0 ht, hp, he⟩

theorem update_first_map_congr (p : Ticket → Bool) (f : Ticket → Ticket)
    {β : Type} (g : Ticket → β) (hg : ∀ t, g (f t) = g t) :
    ∀ l : List Ticket, ((update_first p f l).2).map g = l.map g
  | [] => rfl
  | t0 :: ts => by
    by_cases h0 : p t0 = true
    · simp [update_first, h0, hg]
    · simp [update_first, h0, update_first_map_congr p f g hg ts]

theorem update_first_countP_le (p : Ticket → Bool) (f : Ticket → Ticket)
    (q : Ticket → Bool) (hq : ∀ t, q (f t) = true → q t = true) :
    ∀ l : List Ticket, ((update_first p f l).2).countP q ≤ l.countP q
  | [] => le_refl _
  | t0 :: ts => by
    by_cases h0 : p t0 = true
    · simp only [update_first, if_pos h0, List.countP_cons]
      have : (if q (f t0) = true then 1 else 0) ≤ (if q t0 = true then 1 else 0) := by
        by_cases hf : q (f t0) = true
        · simp [hf, hq t0 hf]
        · simp [hf]
      omega
    · simp only [update_first, if_neg h0, List.countP_cons]
      have := update_first_countP_le p f q hq ts
      omega

theorem update_first_countP_le_succ (p : Ticket → Bool) (f : Ticket → Ticket)
    (q : Ticket → Bool) :
    ∀ l : List Ticket, ((update_first p f l).2).countP q ≤ l.countP q + 1
  | [] => by simp [update_first]
  | t0 :: ts => by
    by_cases h0 : p t0 = true
    · simp only [update_first, if_pos h0, List.countP_cons]
      by_cases hf : q (f t0) = true <;> by_cases ht : q t0 = true <;>
        simp [hf, ht] <;> omega
    · simp only [update_first, if_neg h0, List.countP_cons]
      have := update_first_countP_le_succ p f q ts
      omega

theorem update_first_countP_of_matched (p : Ticket → Bool) (f : Ticket → Ticket)
    (q : Ticket → Bool) (hpq : ∀ t, p t = true → q t = true)
    (hf : ∀ t, q (f t) = false) (l : List Ticket)
    (h : (update_first p f l).1 = 1) :
    ((update_first p f l).2).countP q + 1 = l.countP q := by
  obtain ⟨l₁, t, l₂, he, _, hp, hu⟩ := update_first_structure p f l h
  subst he
  rw [hu]
  simp [List.countP_append, List.countP_cons, hf t, hpq t hp]
  omega

theorem nodup_ids_eq {l : List Ticket}
    (hn : (l.map Ticket._id).Nodup) :
    ∀ x ∈ l, ∀ y ∈ l, x._id = y._id → x = y := by
  induction l with
  | nil => intro x hx; simp at hx
  | cons a tl ih =>
    simp only [List.map_cons, List.nodup_cons] at hn
    intro x hx y hy hxy
    rcases List.mem_cons.1 hx with hx | hx <;> rcases List.mem_cons.1 hy with hy | hy
    · exact hx.trans hy.symm
    · have hm : y._id ∈ tl.map Ticket._id := List.mem_map_of_mem Ticket._id hy
      rw [← hxy, hx] at hm
      exact absurd hm hn.1
    · have hm : x._id ∈ tl.map Ticket._id := List.mem_map_of_mem Ticket._id hx
      rw [hxy, hy] at hm
      exact absurd hm hn.1
    · exact ih hn.2 x hx y hy hxy

theorem foldl_add_eq_sum (m : Ticket → Nat) :
    ∀ (l : List Ticket) (b : Nat),
      l.foldl (fun acc t => acc + m t) b = b + (l.map m).sum
  | [], b => by simp
  | t :: ts, b => by
    simp [List.foldl_cons, foldl_add_eq_sum m ts (b + m t), Nat.add_assoc]

theorem oldest_waiting_spec (s : Store) (t : Ticket)
    (h : oldest_waiting s = some t) :
    t ∈ s.bookings ∧ is_waiting t = true ∧
      ∀ u ∈ s.bookings, is_waiting u = true →
        sort_key_by_created_or_oid t ≤ sort_key_by_created_or_oid u := by
  unfold oldest_waiting at h
  have hperm : List.Perm (List.insertionSort key_le (find_many is_waiting s))
      (find_many is_waiting s) := List.perm_insertionSort key_le _
  have hsorted : List.Sorted key_le
      (List.insertionSort key_le (find_many is_waiting s)) :=
    List.sorted_insertionSort key_le _
  obtain ⟨rest, hrest⟩ :
      ∃ rest, List.insertionSort key_le (find_many is_waiting s) = t :: rest := by
    cases hLc : List.insertionSort key_le (find_many is_waiting s) with
    | nil => rw [hLc] at h; simp at h
    | cons a r =>
      rw [hLc] at h; simp at h
      exact ⟨r, by rw [h]⟩
  have htw : t ∈ find_many is_waiting s :=
    hperm.mem_iff.1 (hrest ▸ List.mem_cons_self t rest)
  have htb : t ∈ s.bookings ∧ is_waiting t = true := by
    unfold find_many at htw
    exact ⟨List.mem_of_mem_filter htw, List.of_mem_filter htw⟩
  refine ⟨htb.1, htb.2, ?_⟩
  intro u hu hwu
  have huw : u ∈ find_many is_waiting s := by
    unfold find_many; exact List.mem_filter.2 ⟨hu, hwu⟩
  have huL : u ∈ List.insertionSort key_le (find_many is_waiting s) :=
    hperm.mem_iff.2 huw
  rw [hrest] at huL hsorted
  rcases List.mem_cons.1 huL with h | h
  · exact h ▸ le_refl _
  · exact List.rel_of_sorted_cons hsorted u h

/-! ### State-threaded read primitives (used to express purity of reads) -/

/-- `find_one` with the store threaded through, as every route sees it. -/
def find_oneS (p : Ticket → Bool) (s : Store) : Option Ticket × Store :=
  (s.bookings.find? p, s)

/-- `find` with the store threaded through. -/
def find_manyS (p : Ticket → Bool) (s : Store) : List Ticket × Store :=
  (s.bookings.filter p, s)

/-- `count_documents` with the store threaded through. -/
def count_documentsS (p : Ticket → Bool) (s : Store) : Nat × Store :=
  ((s.bookings.filter p).length, s)

/-- `get_latest_update_ts` with the store threaded through. -/
def get_latest_update_tsS (s : Store) : Nat × Store :=
  (s.updates.foldl max 0, s)

/-- `compute_stats` written exactly as the source executes it: one store
access per line, the store threaded through every access. -/
def compute_statsS (now : Nat) (s0 : Store) : Stats × Store :=
  let r1 := find_manyS is_waiting s0
  let waiting_sorted := List.insertionSort key_le r1.1
  let r2 := find_oneS is_in_progress r1.2
  let r3 := count_documentsS (completed_today_filter now) r2.2
  let r4 := get_latest_update_tsS r3.2
  let total1 :=
    match r2.1 with
    | some d => 0 + service_minutes d
    | none => 0
  let total_min := waiting_sorted.foldl (fun acc t => acc + service_minutes t) total1
  ({ queue_length := waiting_sorted.length
     estimated_wait_min := total_min
     completed_today := r3.1
     waiting := waiting_sorted.enum.map (fun p =>
       { sno := p.1 + 1, id := p.2._id, name := p.2.patient_name,
         department := p.2.department, booking_id := p.2.booking_id })
     in_progress := r2.1.map (fun d =>
       { id := d._id, name := d.patient_name, department := d.department,
         booking_id := d.booking_id })
     latest_update_ts := r4.1 }, r4.2)

/-- Every ticket field other than `status` and `created_at`. -/
def other_fields (t : Ticket) :
    Nat × Option String × Option String × Option String × Option Nat × Option Nat :=
  (t._id, t.booking_id, t.patient_name, t.department, t.started_at, t.completed_at)

/-! ### Concrete fixtures -/

/-- Scenario ticket T1: in service, category General. -/
def q3T1 : Ticket := ⟨1, some "T1", none, some "General", some "in_progress", some 11, some 20, none⟩

/-- Scenario ticket T2: waiting, category General, admitted before T3. -/
def q3T2 : Ticket := ⟨2, some "T2", none, some "General", some "waiting", some 12, none, none⟩

/-- Scenario ticket T3: waiting, category General, admitted last. -/
def q3T3 : Ticket := ⟨3, some "T3", none, some "General", some "waiting", some 13, none, none⟩

/-- Scenario store: T1 in service, T2 and T3 waiting. -/
def q3_store : Store := ⟨[q3T1, q3T2, q3T3], []⟩

/-- A ticket with no department recorded. -/
def no_dept_ticket : Ticket := ⟨4, some "T4", none, none, some "waiting", some 14, none, none⟩

/-- A fully backfilled document. -/
def full_doc : Ticket := ⟨5, some "T5", none, some "Fever", some "waiting", some 15, none, none⟩

/-- A store holding only `full_doc`. -/
def full_store : Store := ⟨[full_doc], []⟩

/-! ### Claim theorems -/

/-- C9: `ComputeStats` performs no mutation: threading the store through
every one of its store accesses returns the store unchanged (tickets and
change-signal markers alike), and the snapshot is the plain value
`compute_stats now s` of the pre-call state, hence independent of any later
store change. -/
theorem compute_stats_pure (now : Nat) (s : Store) :
    compute_statsS now s = (compute_stats now s, s) := rfl

/-- C7: `compute_stats` reports `completed_today` as the number of completed
tickets whose `completed_at` lies at or after `today_start now`, the UTC
midnight of the current day (a multiple of 86400 seconds, at most `now`,
and less than one day before `now`); no ticket completed before that
boundary is counted. -/
theorem compute_stats_completed_today (now : Nat) (s : Store) :
    (compute_stats now s).completed_today =
      ((s.bookings.filter (fun t => t.status == some "completed")).filter
        (fun t => t.completed_at.any (fun c => today_start now ≤ c))).length
    ∧ today_start now % 86400 = 0
    ∧ today_start now ≤ now
    ∧ now < today_start now + 86400 := by
  refine ⟨?_, ?_, ?_, ?_⟩
  · show count_documents (completed_today_filter now) s = _
    unfold count_documents completed_today_filter
    rw [List.filter_filter]
    apply congrArg List.length
    apply List.filter_congr
    intro t _
    exact Bool.and_comm _ _
  · unfold today_start; omega
  · unfold today_start; omega
  · unfold today_start; omega

/-- C6: `search` fails with `invalidInput` whenever the supplied code is
empty after trim-and-uppercase normalization, and with `notFound` whenever
the normalized code matches no ticket; in the `notFound` case the store
(tickets and change-signal markers) is returned exactly as it was. -/
theorem search_rejects_invalid_and_unknown (now : Nat) (raw : String) (s : Store) :
    (normalize_code raw = "" →
      search now (some raw) s = (SearchResult.invalidInput, s))
    ∧ (normalize_code raw ≠ "" →
        find_one (fun t => t.booking_id == some (normalize_code raw)) s = none →
        search now (some raw) s = (SearchResult.notFound, s)) := by
  constructor
  · intro h
    unfold search
    simp [h]
  · intro h hf
    unfold search
    simp [h, hf]

/-- C6 witness: on an empty store, `search` of `"unknown"` returns
`notFound` without any state change, and an all-blank code is rejected. -/
theorem search_rejects_invalid_and_unknown_witness :
    search 0 (some "unknown") (Store.mk [] []) = (SearchResult.notFound, Store.mk [] [])
    ∧ search 0 (some "  ") (Store.mk [] []) = (SearchResult.invalidInput, Store.mk [] []) :=
  ⟨(search_rejects_invalid_and_unknown 0 "unknown" (Store.mk [] [])).2
      (by decide) (by decide),
   (search_rejects_invalid_and_unknown 0 "  " (Store.mk [] [])).1 (by decide)⟩

/-- C4: `estimated_wait_min` equals the category duration of the in-service
ticket (if any) plus the sum of the category durations of all waiting
tickets; the table maps Emergency, Fever, Headache, General,
General Medicine and Cardiology to 3, 2, 5, 10, 8 and 15 minutes with
default 10 for unrecognized or missing categories; in the three-General
scenario the snapshot shows 30 estimated minutes and queue length 2. -/
theorem compute_stats_estimated_wait :
    (∀ (now : Nat) (s : Store),
      (compute_stats now s).estimated_wait_min =
        (match find_one is_in_progress s with
         | some d => service_minutes d
         | none => 0) +
        ((find_many is_waiting s).map service_minutes).sum
      ∧ (compute_stats now s).queue_length = (find_many is_waiting s).length)
    ∧ dept_minutes "Emergency" = 3 ∧ dept_minutes "Fever" = 2
    ∧ dept_minutes "Headache" = 5 ∧ dept_minutes "General" = 10
    ∧ dept_minutes "General Medicine" = 8 ∧ dept_minutes "Cardiology" = 15
    ∧ dept_minutes "Dermatology" = 10
    ∧ service_minutes no_dept_ticket = 10
    ∧ (compute_stats 100 q3_store).estimated_wait_min = 30
    ∧ (compute_stats 100 q3_store).queue_length = 2 := by
  refine ⟨?_, by decide, by decide, by decide, by decide, by decide, by decide,
    by decide, by decide, by decide, by decide⟩
  intro now s
  have hperm := List.perm_insertionSort key_le (find_many is_waiting s)
  have hsum : ((List.insertionSort key_le (find_many is_waiting s)).map
        service_minutes).sum =
      ((find_many is_waiting s).map service_minutes).sum :=
    (hperm.map service_minutes).sum_eq
  constructor
  · show (List.insertionSort key_le (find_many is_waiting s)).foldl
        (fun acc t => acc + service_minutes t)
        (match find_one is_in_progress s with
         | some d => 0 + service_minutes d
         | none => 0) = _
    rw [foldl_add_eq_sum, hsum]
    cases find_one is_in_progress s <;> simp
  · show (List.insertionSort key_le (find_many is_waiting s)).length = _
    exact hperm.length_eq

/-- C5: whenever the promotion step (shared by `search` and `complete`)
finds a FIFO-earliest waiting ticket `t`, that `t` is a waiting ticket of
the store whose sort key — `created_at`, falling back to the ObjectId
generation time when `created_at` is missing — is minimal among all waiting
tickets, and the step is exactly the conditional update that moves `t` to
`in_progress` stamping `started_at`. -/
theorem promotion_picks_fifo_earliest (now : Nat) (s : Store) (t : Ticket)
    (h : oldest_waiting s = some t) :
    (t ∈ s.bookings ∧ t.status = some "waiting")
    ∧ (∀ u ∈ s.bookings, u.status = some "waiting" →
        sort_key_by_created_or_oid t ≤ sort_key_by_created_or_oid u)
    ∧ promote_oldest now s
        = (update_one (fun x => x._id == t._id)
            (fun x => { x with status := some "in_progress",
                               started_at := some now }) s).2
    ∧ (∀ x : Ticket, x.created_at = none →
        sort_key_by_created_or_oid x = oid_generation_time x._id)
    ∧ (∀ (x : Ticket) (c : Nat), x.created_at = some c →
        sort_key_by_created_or_oid x = c) := by
  obtain ⟨hmem, hw, hmin⟩ := oldest_waiting_spec s t h
  refine ⟨⟨hmem, ?_⟩, ?_, ?_, ?_, ?_⟩
  · unfold is_waiting at hw
    simpa using hw
  · intro u hu hsu
    exact hmin u hu (by unfold is_waiting; simp [hsu])
  · unfold promote_oldest
    rw [h]
  · intro x hx
    unfold sort_key_by_created_or_oid
    rw [hx]
  · intro x c hx
    unfold sort_key_by_created_or_oid
    rw [hx]

/-- C5 witness: in the three-ticket scenario store the promotion step picks
T2, the earliest-admitted waiting ticket. -/
theorem promotion_picks_fifo_earliest_witness :
    (q3T2 ∈ q3_store.bookings ∧ q3T2.status = some "waiting")
    ∧ ∀ u ∈ q3_store.bookings, u.status = some "waiting" →
        sort_key_by_created_or_oid q3T2 ≤ sort_key_by_created_or_oid u :=
  ⟨(promotion_picks_fifo_earliest 50 q3_store q3T2 (by decide)).1,
   (promotion_picks_fifo_earliest 50 q3_store q3T2 (by decide)).2.1⟩

/-- C8: `ensure_defaults` is an idempotent repair: it sets `status` to
`waiting` only when `status` is absent and `created_at` to `now` only when
`created_at` is absent, never overwrites a present value, changes no other
field of any record, leaves the change-signal markers alone, is the
identity on a record that already has both fields, and applying it twice
equals applying it once. -/
theorem ensure_defaults_idempotent_repair (now now2 doc_id : Nat)
    (doc : Ticket) (s : Store) :
    ((ensure_defaults now doc_id doc s).1.status
       = if doc.status.isNone then some "waiting" else doc.status)
    ∧ ((ensure_defaults now doc_id doc s).1.created_at
       = if doc.created_at.isNone then some now else doc.created_at)
    ∧ other_fields (ensure_defaults now doc_id doc s).1 = other_fields doc
    ∧ (ensure_defaults now doc_id doc s).2.bookings.map other_fields
        = s.bookings.map other_fields
    ∧ (ensure_defaults now doc_id doc s).2.updates = s.updates
    ∧ (doc.status.isSome → doc.created_at.isSome →
        ensure_defaults now doc_id doc s = (doc, s))
    ∧ ensure_defaults now2 doc_id (ensure_defaults now doc_id doc s).1
        (ensure_defaults now doc_id doc s).2 = ensure_defaults now doc_id doc s := by
  by_cases hs : doc.status.isNone <;> by_cases hc : doc.created_at.isNone
  · refine ⟨by simp [ensure_defaults, hs, hc], by simp [ensure_defaults, hs, hc],
      by simp [ensure_defaults, hs, hc, other_fields],
      ?_, by simp [ensure_defaults, hs, hc, update_one],
      by intro h1 _; rw [Option.isNone_iff_eq_none.mp hs] at h1; simp at h1,
      by simp [ensure_defaults, hs, hc, update_one]⟩
    simp only [ensure_defaults, hs, hc, update_one]
    simp only [Bool.true_or, if_pos]
    apply update_first_map_congr
    intro t
    rfl
  · refine ⟨by simp [ensure_defaults, hs, hc], by simp [ensure_defaults, hs, hc],
      by simp [ensure_defaults, hs, hc, other_fields],
      ?_, by simp [ensure_defaults, hs, hc, update_one],
      by intro h1 _; rw [Option.isNone_iff_eq_none.mp hs] at h1; simp at h1,
      by simp [ensure_defaults, hs, hc, update_one]⟩
    simp only [ensure_defaults, hs, hc, update_one]
    simp only [Bool.true_or, if_pos]
    apply update_first_map_congr
    intro t
    rfl
  · refine ⟨by simp [ensure_defaults, hs, hc], by simp [ensure_defaults, hs, hc],
      by simp [ensure_defaults, hs, hc, other_fields],
      ?_, by simp [ensure_defaults, hs, hc, update_one],
      by intro _ h2; rw [Option.isNone_iff_eq_none.mp hc] at h2; simp at h2,
      by simp [ensure_defaults, hs, hc, update_one]⟩
    simp only [ensure_defaults, hs, hc, update_one]
    simp only [Bool.or_true, if_pos]
    apply update_first_map_congr
    intro t
    rfl
  · exact ⟨by simp [ensure_defaults, hs, hc], by simp [ensure_defaults, hs, hc],
      by simp [ensure_defaults, hs, hc], by simp [ensure_defaults, hs, hc],
      by simp [ensure_defaults, hs, hc], by intro _ _; simp [ensure_defaults, hs, hc],
      by simp [ensure_defaults, hs, hc]⟩

/-- C8 witness: on an already-complete record `ensure_defaults` is the
identity on document and store. -/
theorem ensure_defaults_idempotent_repair_witness :
    ensure_defaults 7 5 full_doc full_store = (full_doc, full_store) :=
  (ensure_defaults_idempotent_repair 7 8 5 full_doc full_store).2.2.2.2.2.1
    (by decide) (by decide)

/-! ### Reduction and counting lemmas for the two mutating routes -/

theorem complete_parse_some (now : Nat) (id : String) (oid : Nat) (s : Store)
    (hp : parse_object_id id = some oid) :
    complete now id s = complete_body now oid s := by
  unfold complete
  rw [hp]

theorem search_found_of_find (now : Nat) (raw : String) (s : Store) (doc : Ticket)
    (hb : ¬ normalize_code raw = "")
    (hf : find_one (fun t => t.booking_id == some (normalize_code raw)) s = some doc) :
    search now (some raw) s = search_found now doc s := by
  unfold search
  simp [hb, hf]

theorem in_progress_count_eq (s : Store) :
    in_progress_count s = s.bookings.countP is_in_progress := by
  unfold in_progress_count count_documents
  exact (List.countP_eq_length_filter _ _).symm

theorem in_progress_count_notify (now : Nat) (s : Store) :
    in_progress_count (notify_update now s) = in_progress_count s := rfl

theorem update_first_fst_cases (p : Ticket → Bool) (f : Ticket → Ticket) :
    ∀ l : List Ticket, (update_first p f l).1 = 0 ∨ (update_first p f l).1 = 1
  | [] => Or.inl rfl
  | t :: ts => by
    by_cases h : p t = true
    · simp [update_first, h]
    · simp only [update_first, if_neg h]
      exact update_first_fst_cases p f ts

theorem ensure_defaults_in_progress_le (now doc_id : Nat) (doc : Ticket) (s : Store) :
    in_progress_count (ensure_defaults now doc_id doc s).2 ≤ in_progress_count s := by
  rw [in_progress_count_eq, in_progress_count_eq]
  simp only [ensure_defaults, update_one]
  split
  · dsimp only
    apply update_first_countP_le
    intro t ht
    unfold is_in_progress at ht ⊢
    by_cases hss : doc.status.isNone
    · simp [hss] at ht
    · simpa [hss] using ht
  · exact le_refl _

theorem promote_oldest_in_progress_le (now : Nat) (s : Store) :
    in_progress_count (promote_oldest now s) ≤ in_progress_count s + 1 := by
  rw [in_progress_count_eq, in_progress_count_eq]
  unfold promote_oldest
  cases h : oldest_waiting s with
  | none => simp
  | some o =>
    simp only [update_one]
    exact update_first_countP_le_succ _ _ _ s.bookings

theorem complete_filter_in_progress (oid : Nat) (t : Ticket)
    (h : complete_filter oid t = true) : is_in_progress t = true := by
  unfold complete_filter at h
  unfold is_in_progress
  exact (Bool.and_eq_true_iff.mp h).2

theorem complete_set_not_in_progress (now : Nat) (t : Ticket) :
    is_in_progress (complete_set now t) = false := by
  unfold complete_set is_in_progress
  simp

/-- C1: starting from any store in which at most one ticket is
`in_progress`, both `search` (which promotes only when it counts zero
`in_progress` tickets) and `complete` (which promotes only after the sole
`in_progress` ticket was conditionally moved to `completed`) leave at most
one ticket `in_progress`. -/
theorem search_complete_preserve_single_server (now : Nat) (body : Option String)
    (id : String) (s : Store) (h : in_progress_count s ≤ 1) :
    in_progress_count (search now body s).2 ≤ 1
    ∧ in_progress_count (complete now id s).2 ≤ 1 := by
  constructor
  · cases body with
    | none => simpa [search] using h
    | some raw =>
      by_cases hb : normalize_code raw = ""
      · simpa [search, hb] using h
      · cases hf : find_one (fun t => t.booking_id == some (normalize_code raw)) s with
        | none => simpa [search, hb, hf] using h
        | some doc =>
          rw [search_found_of_find now raw s doc hb hf]
          simp only [search_found, in_progress_count_notify]
          have hA := ensure_defaults_in_progress_le now doc._id doc s
          by_cases h0 : in_progress_count (ensure_defaults now doc._id doc s).2 = 0
          · rw [if_pos h0]
            have hB := promote_oldest_in_progress_le now
              (ensure_defaults now doc._id doc s).2
            omega
          · rw [if_neg h0]
            omega
  · cases hp : parse_object_id id with
    | none => simpa [complete, hp] using h
    | some oid =>
      rw [complete_parse_some now id oid s hp]
      rcases update_first_fst_cases (complete_filter oid) (complete_set now)
          s.bookings with h0 | h1
      · have h0' : (update_one (complete_filter oid) (complete_set now) s).1 = 0 := h0
        simp only [complete_body]
        rw [if_pos h0']
        exact h
      · have h1' : ¬ (update_one (complete_filter oid) (complete_set now) s).1 = 0 := by
          show ¬ (update_first (complete_filter oid) (complete_set now) s.bookings).1 = 0
          omega
        simp only [complete_body]
        rw [if_neg h1']
        show in_progress_count (notify_update now (promote_oldest now
          (update_one (complete_filter oid) (complete_set now) s).2)) ≤ 1
        rw [in_progress_count_notify]
        have hdec := update_first_countP_of_matched (complete_filter oid)
          (complete_set now) is_in_progress (complete_filter_in_progress oid)
          (complete_set_not_in_progress now) s.bookings h1
        have hz : in_progress_count (update_one (complete_filter oid)
            (complete_set now) s).2 = 0 := by
          rw [in_progress_count_eq]
          show ((update_first (complete_filter oid) (complete_set now)
            s.bookings).2).countP is_in_progress = 0
          rw [in_progress_count_eq] at h
          omega
        have hB := promote_oldest_in_progress_le now
          (update_one (complete_filter oid) (complete_set now) s).2
        omega

/-- C1 witness: the scenario store has exactly one in-service ticket; both
operations keep it to at most one. -/
theorem search_complete_preserve_single_server_witness :
    in_progress_count (search 60 (some "T3") q3_store).2 ≤ 1
    ∧ in_progress_count (complete 60 "000000000000000000000001" q3_store).2 ≤ 1 :=
  search_complete_preserve_single_server 60 (some "T3")
    "000000000000000000000001" q3_store (by decide)

/-- C10: whenever `complete` fails — the id does not parse as an ObjectId
(`invalidId`) or the conditional update matches no `in_progress` ticket
with that id (`notFound`) — it returns the store exactly as it was: no
ticket mutated, no promotion, no change-signal marker written. -/
theorem complete_failure_atomic (now : Nat) (id : String) (s : Store) :
    (parse_object_id id = none →
      complete now id s = (CompleteResult.invalidId, s))
    ∧ (∀ oid, parse_object_id id = some oid →
        (∀ t ∈ s.bookings, complete_filter oid t = false) →
        complete now id s = (CompleteResult.notFound, s)) := by
  constructor
  · intro h
    unfold complete
    rw [h]
  · intro oid hp hno
    rw [complete_parse_some now id oid s hp]
    unfold complete_body
    have hz := update_first_of_no_match (complete_filter oid) (complete_set now)
      s.bookings hno
    simp [update_one, hz]

/-- C10 witness: an unparsable id and a parsable id naming no in-service
ticket both leave the scenario store untouched. -/
theorem complete_failure_atomic_witness :
    complete 3 "zz" q3_store = (CompleteResult.invalidId, q3_store)
    ∧ complete 3 "000000000000000000000009" q3_store
        = (CompleteResult.notFound, q3_store) :=
  ⟨(complete_failure_atomic 3 "zz" q3_store).1 (by decide),
   (complete_failure_atomic 3 "000000000000000000000009" q3_store).2 9
     (by decide) (by decide)⟩

/-! ### Lemmas for completion and per-ticket frame reasoning -/

theorem nodup_middle_ne {l₁ l₂ : List Ticket} {t₀ : Ticket}
    (hn : ((l₁ ++ t₀ :: l₂).map Ticket._id).Nodup) :
    ∀ x : Ticket, (x ∈ l₁ ∨ x ∈ l₂) → x._id ≠ t₀._id := by
  rw [List.map_append, List.map_cons, List.nodup_append] at hn
  obtain ⟨h1, h2, hdisj⟩ := hn
  intro x hx heq
  rcases hx with hx | hx
  · exact hdisj (List.mem_map_of_mem Ticket._id hx)
      (by rw [heq]; exact List.mem_cons_self _ _)
  · have h3 : t₀._id ∉ l₂.map Ticket._id := (List.nodup_cons.mp h2).1
    exact h3 (heq ▸ List.mem_map_of_mem Ticket._id hx)

theorem promote_oldest_mem_of_id (now : Nat) (s1 : Store) (oid : Nat)
    (hno : ∀ x ∈ s1.bookings, x._id = oid → is_waiting x = false) :
    ∀ x ∈ (promote_oldest now s1).bookings, x._id = oid → x ∈ s1.bookings := by
  intro x hx hid
  unfold promote_oldest at hx
  cases ho : oldest_waiting s1 with
  | none => rw [ho] at hx; exact hx
  | some o =>
    rw [ho] at hx
    obtain ⟨hom, how, _⟩ := oldest_waiting_spec s1 o ho
    have hone : o._id ≠ oid := by
      intro hoe
      rw [hno o hom hoe] at how
      exact Bool.false_ne_true how
    rcases update_first_mem _ _ s1.bookings x hx with hmem | ⟨u, hu, hpu, hxu⟩
    · exact hmem
    · exfalso
      have h1 : u._id = o._id := by simpa using hpu
      have h2 : x._id = u._id := by rw [hxu]
      exact hone (by rw [← h1, ← h2, hid])

theorem complete_body_no_match (now oid : Nat) (s : Store)
    (hall : ∀ x ∈ s.bookings, complete_filter oid x = false) :
    complete_body now oid s = (CompleteResult.notFound, s) := by
  have hz := update_first_of_no_match (complete_filter oid) (complete_set now)
    s.bookings hall
  have hfst : (update_one (complete_filter oid) (complete_set now) s).1 = 0 := by
    show (update_first (complete_filter oid) (complete_set now) s.bookings).1 = 0
    rw [hz]
  simp only [complete_body]
  rw [if_pos hfst]

theorem complete_body_success (now oid : Nat) (s : Store)
    (hn : (s.bookings.map Ticket._id).Nodup)
    (hex : ∃ t ∈ s.bookings, t._id = oid ∧ t.status = some "in_progress") :
    (∃ st, (complete_body now oid s).1 = CompleteResult.ok st)
    ∧ ∀ x ∈ (complete_body now oid s).2.bookings, x._id = oid →
        x.status = some "completed" ∧ x.completed_at = some now := by
  obtain ⟨t, ht, htid, hts⟩ := hex
  have hpt : complete_filter oid t = true := by
    unfold complete_filter
    simp [htid, hts]
  have h1 : (update_first (complete_filter oid) (complete_set now) s.bookings).1 = 1 :=
    update_first_fst_one_of_mem _ _ s.bookings t ht hpt
  have h1' : ¬ (update_one (complete_filter oid) (complete_set now) s).1 = 0 := by
    show ¬ (update_first (complete_filter oid) (complete_set now) s.bookings).1 = 0
    omega
  obtain ⟨l₁, t₀, l₂, heq, hl₁, hp₀, hu⟩ :=
    update_first_structure (complete_filter oid) (complete_set now) s.bookings h1
  have ht₀id : t₀._id = oid := by
    unfold complete_filter at hp₀
    have := (Bool.and_eq_true_iff.mp hp₀).1
    simpa using this
  have hs1 : (update_one (complete_filter oid) (complete_set now) s).2.bookings
      = l₁ ++ complete_set now t₀ :: l₂ := hu
  have hsub : ∀ x ∈ (update_one (complete_filter oid) (complete_set now) s).2.bookings,
      x._id = oid → x.status = some "completed" ∧ x.completed_at = some now := by
    intro x hx hid
    rw [hs1] at hx
    rcases List.mem_append.1 hx with hx1 | hx2
    · exact absurd (by rw [hid, ht₀id])
        (nodup_middle_ne (heq ▸ hn) x (Or.inl hx1))
    · rcases List.mem_cons.1 hx2 with hxe | hx3
      · exact ⟨by rw [hxe]; rfl, by rw [hxe]; rfl⟩
      · exact absurd (by rw [hid, ht₀id])
          (nodup_middle_ne (heq ▸ hn) x (Or.inr hx3))
  constructor
  · refine ⟨compute_stats now (notify_update now (promote_oldest now
      (update_one (complete_filter oid) (complete_set now) s).2)), ?_⟩
    simp only [complete_body]
    rw [if_neg h1']
  · intro x hx hid
    have hno : ∀ y ∈ (update_one (complete_filter oid) (complete_set now) s).2.bookings,
        y._id = oid → is_waiting y = false := by
      intro y hy hyid
      unfold is_waiting
      rw [(hsub y hy hyid).1]
      rfl
    have hx' : x ∈ (promote_oldest now (update_one (complete_filter oid)
        (complete_set now) s).2).bookings := by
      revert hx
      simp only [complete_body]
      rw [if_neg h1']
      intro hx
      exact hx
    exact hsub x (promote_oldest_mem_of_id now _ oid hno x hx' hid) hid

/-- C3: for a well-formed id, `complete` succeeds if and only if a ticket
with that id is currently `in_progress`; success sets its status to
`completed` stamping `completed_at`, any other id (absent, waiting or
already completed) yields `notFound` with the store untouched, and an
immediately repeated call on the same id yields `notFound`. -/
theorem complete_succeeds_iff_in_progress (now now2 : Nat) (id : String)
    (oid : Nat) (s : Store)
    (hp : parse_object_id id = some oid)
    (hn : (s.bookings.map Ticket._id).Nodup) :
    ((∃ t ∈ s.bookings, t._id = oid ∧ t.status = some "in_progress") →
       (∃ st, (complete now id s).1 = CompleteResult.ok st)
       ∧ (∀ x ∈ (complete now id s).2.bookings, x._id = oid →
            x.status = some "completed" ∧ x.completed_at = some now)
       ∧ (complete now2 id (complete now id s).2).1 = CompleteResult.notFound)
    ∧ ((¬ ∃ t ∈ s.bookings, t._id = oid ∧ t.status = some "in_progress") →
         complete now id s = (CompleteResult.notFound, s)) := by
  constructor
  · intro hex
    rw [complete_parse_some now id oid s hp]
    obtain ⟨hok, hcomp⟩ := complete_body_success now oid s hn hex
    refine ⟨hok, hcomp, ?_⟩
    rw [complete_parse_some now2 id oid _ hp]
    have hall : ∀ x ∈ (complete_body now oid s).2.bookings,
        complete_filter oid x = false := by
      intro x hx
      unfold complete_filter
      by_cases hid : x._id = oid
      · rw [(hcomp x hx hid).1]
        simp
      · simp [hid]
    rw [complete_body_no_match now2 oid _ hall]
  · intro hnex
    rw [complete_parse_some now id oid s hp]
    apply complete_body_no_match
    intro x hx
    unfold complete_filter
    by_cases hid : x._id = oid
    · by_cases hst : x.status = some "in_progress"
      · exact absurd ⟨x, hx, hid, hst⟩ hnex
      · simp [hst]
    · simp [hid]

/-- C3 witness: completing the in-service scenario ticket succeeds once and
returns `notFound` when repeated on the same id. -/
theorem complete_succeeds_iff_in_progress_witness :
    (∃ st, (complete 70 "000000000000000000000001" q3_store).1
      = CompleteResult.ok st)
    ∧ (complete 71 "000000000000000000000001"
        (complete 70 "000000000000000000000001" q3_store).2).1
      = CompleteResult.notFound :=
  ⟨((complete_succeeds_iff_in_progress 70 71 "000000000000000000000001" 1 q3_store
      (by decide) (by decide)).1 (by decide)).1,
   ((complete_succeeds_iff_in_progress 70 71 "000000000000000000000001" 1 q3_store
      (by decide) (by decide)).1 (by decide)).2.2⟩

/-! ### Lemmas for the looked-up-ticket frame property of `search` -/

theorem ensure_defaults_mem (now doc_id : Nat) (doc : Ticket) (s : Store) :
    ∀ y ∈ (ensure_defaults now doc_id doc s).2.bookings,
      y ∈ s.bookings ∨ ∃ u ∈ s.bookings, u._id = doc_id ∧
        y = { u with
          status := if doc.status.isNone then some "waiting" else u.status,
          created_at := if doc.created_at.isNone then some now
                        else u.created_at } := by
  intro y hy
  simp only [ensure_defaults] at hy
  split at hy
  · rcases update_first_mem _ _ s.bookings y hy with hmem | ⟨u, hu, hpu, hyu⟩
    · exact Or.inl hmem
    · exact Or.inr ⟨u, hu, by simpa using hpu, hyu⟩
  · exact Or.inl hy

theorem promote_oldest_mem_of_ne (now : Nat) (s1 : Store) (oid : Nat)
    (hne : ∀ t, oldest_waiting s1 = some t → t._id ≠ oid) :
    ∀ x ∈ (promote_oldest now s1).bookings, x._id = oid → x ∈ s1.bookings := by
  intro x hx hid
  unfold promote_oldest at hx
  cases ho : oldest_waiting s1 with
  | none => rw [ho] at hx; exact hx
  | some o =>
    rw [ho] at hx
    have hone : o._id ≠ oid := hne o ho
    rcases update_first_mem _ _ s1.bookings x hx with hmem | ⟨u, hu, hpu, hxu⟩
    · exact hmem
    · exfalso
      have h1 : u._id = o._id := by simpa using hpu
      have h2 : x._id = u._id := by rw [hxu]
      exact hone (by rw [← h1, ← h2, hid])

/-- The looked-up ticket of the C2 counterexample: alone, waiting, and the
FIFO-earliest, with no ticket in service. -/
def c2_t1 : Ticket := ⟨1, some "A", none, some "General", some "waiting", some 5, none, none⟩

/-- Store of the C2 counterexample. -/
def c2_store : Store := ⟨[c2_t1], []⟩

/-- C2 counterexample: a successful `search` CAN mutate the status of the
looked-up ticket — when that ticket is itself the FIFO-earliest waiting
ticket and no ticket is in service, the promotion step moves it to
`in_progress`, so "never mutated, even in that case" is false. -/
theorem search_mutates_looked_up_status_cex :
    find_one (fun t => t.booking_id == some (normalize_code "A")) c2_store
      = some c2_t1
    ∧ c2_t1.status = some "waiting"
    ∧ (search 10 (some "A") c2_store).1 = SearchResult.ok 1
    ∧ (search 10 (some "A") c2_store).2.bookings.map Ticket.status
        = [some "in_progress"] := by decide

/-- C2 (amended): for every successful `search`, the status of the
looked-up ticket is not mutated, provided the ticket already carries a
status (so the backfill leaves it alone) and the promotion step does not
select it — that is, some ticket is still in service after the backfill,
or the FIFO-earliest waiting ticket is a different record. -/
theorem search_preserves_looked_up_status_amended
    (now : Nat) (raw : String) (s : Store) (doc : Ticket)
    (hn : (s.bookings.map Ticket._id).Nodup)
    (hb : ¬ normalize_code raw = "")
    (hf : find_one (fun t => t.booking_id == some (normalize_code raw)) s
      = some doc)
    (hstat : doc.status.isSome = true)
    (hnp : in_progress_count (ensure_defaults now doc._id doc s).2 ≠ 0
        ∨ ∀ t, oldest_waiting (ensure_defaults now doc._id doc s).2 = some t →
            t._id ≠ doc._id) :
    ∀ x ∈ (search now (some raw) s).2.bookings, x._id = doc._id →
      x.status = doc.status := by
  rw [search_found_of_find now raw s doc hb hf]
  intro x hx hid
  have hdocmem : doc ∈ s.bookings := List.mem_of_find?_eq_some hf
  have hss : doc.status.isNone = false := by
    cases hds : doc.status with
    | none => rw [hds] at hstat; simp at hstat
    | some v => rfl
  have hs1mem : ∀ y ∈ (ensure_defaults now doc._id doc s).2.bookings,
      y._id = doc._id → y.status = doc.status := by
    intro y hy hyid
    rcases ensure_defaults_mem now doc._id doc s y hy with hmem | ⟨u, hu, huid, hyu⟩
    · rw [nodup_ids_eq hn y hmem doc hdocmem hyid]
    · have hud : u = doc := nodup_ids_eq hn u hu doc hdocmem huid
      rw [hyu, hud]
      simp [hss]
  have hx2 : x ∈ (if in_progress_count (ensure_defaults now doc._id doc s).2 = 0
      then promote_oldest now (ensure_defaults now doc._id doc s).2
      else (ensure_defaults now doc._id doc s).2).bookings := by
    revert hx
    simp only [search_found]
    intro hx
    exact hx
  by_cases h0 : in_progress_count (ensure_defaults now doc._id doc s).2 = 0
  · rw [if_pos h0] at hx2
    have hne : ∀ t, oldest_waiting (ensure_defaults now doc._id doc s).2 = some t →
        t._id ≠ doc._id := by
      rcases hnp with hnp | hnp
      · exact absurd h0 hnp
      · exact hnp
    exact hs1mem x
      (promote_oldest_mem_of_ne now _ doc._id hne x hx2 hid) hid
  · rw [if_neg h0] at hx2
    exact hs1mem x hx2 hid

/-- A second ticket, admitted later than `c2w_t1`, used to show the amended
frame property on a concrete run. -/
def c2w_t2 : Ticket := ⟨2, some "B", none, some "Fever", some "waiting", some 9, none, none⟩

/-- The earliest waiting ticket of the amended-C2 witness store. -/
def c2w_t1 : Ticket := ⟨1, some "A", none, some "General", some "waiting", some 5, none, none⟩

/-- Witness store: two waiting tickets; looking up the later one promotes
the earlier one. -/
def c2w_store : Store := ⟨[c2w_t1, c2w_t2], []⟩

/-- C2 witness: searching for the later-admitted ticket `B` leaves the
status of `B`'s record untouched (ticket `A` is promoted instead); the
amended theorem applies with every hypothesis discharged, instantiated at
`B`'s unchanged record in the result store. -/
theorem search_preserves_looked_up_status_amended_witness :
    (search 20 (some "B") c2w_store).2.bookings.map Ticket.status
      = [some "in_progress", some "waiting"]
    ∧ c2w_t2.status = c2w_t2.status :=
  ⟨by decide,
   search_preserves_looked_up_status_amended 20 "B" c2w_store c2w_t2
    (by decide) (by decide) (by decide) (by decide)
    (Or.inr (by
      intro t ht
      have h1 : oldest_waiting (ensure_defaults 20 c2w_t2._id c2w_t2 c2w_store).2
          = some c2w_t1 := by decide
      rw [h1] at ht
      cases ht
      decide))
    c2w_t2 (by decide) rfl⟩
